import Mathlib

/-!
# Zelda character service (`server/main.go`)

A shallow embedding of the gin handlers of `server/main.go`: the static catalog, the three lookup
handlers, the chat relay and the CORS middleware.

Conventions of the embedding.

* A Go `string` is a Lean `String` (the text is taken to be valid UTF-8).
* A Go slice is a `Slice`: `nil`, or a sequence of elements.  The distinction matters because
  `encoding/json` writes a nil slice as `null` and a non-nil slice as an array.
* A response body is kept as a JSON value (`JSON`), not as its serialised text.
* `gin.Context` is the record `Context`: the request, the response written so far, and the
  observable effects of the handler (outbound POSTs, process exit through `log.Fatal`).
* What the handlers obtain from outside the program is collected in `Env`: the environment
  variable, the outcome of `http.Post`, the result of `json.Unmarshal` on the upstream body,
  and the Unicode case table used by `strings.ToLower` for runes outside ASCII.
* The gin router is modelled for the four routes registered in `main`: a request goes to the
  handler chain of its route, or is answered by the router's own trailing-slash redirect, or goes
  to the no-route chain.  The middleware of `main` is part of both chains.  The request
  `OPTIONS *` is answered by the HTTP server before gin sees it.
* Logging (`log.Println` and the logger of `gin.Default()`) is not modelled.
-/

namespace Zelda

/-! ## JSON values -/

/-- A JSON value. -/
inductive JSON where
  | null
  | bool (b : Bool)
  | num (q : ℚ)
  | str (s : String)
  | arr (items : List JSON)
  | obj (members : List (String × JSON))

/-- A Go slice value: `nil`, or a non-nil slice holding the given elements. -/
inductive Slice (α : Type) where
  | nil
  | elems (xs : List α)

/-- The elements of a slice, as `range` visits them. -/
def Slice.toList {α : Type} : Slice α → List α
  | .nil => []
  | .elems xs => xs

/-- Go `append(s, x)`: appending to a nil slice yields a non-nil slice. -/
def Slice.append {α : Type} : Slice α → α → Slice α
  | .nil, x => .elems [x]
  | .elems xs, x => .elems (xs ++ [x])

/-! ## Data model (`main.go` lines 16-45) -/

structure Character where
  ID : Int
  Name : String
  Description : String
  deriving DecidableEq, Repr

structure Creator where
  ID : Int
  Name : String
  Role : String
  deriving DecidableEq, Repr

structure ChatRequest where
  Message : String
  deriving DecidableEq, Repr

structure ChatResponse where
  Reply : String
  deriving DecidableEq, Repr

/-- The seed catalog `characters`, a non-nil slice literal. -/
def characters : Slice Character :=
  .elems [
    ⟨1, "Link", "The hero of Hyrule, a courageous swordsman."⟩,
    ⟨2, "Zelda", "The princess of Hyrule, bearer of the Triforce of Wisdom."⟩,
    ⟨3, "Ganon", "The primary antagonist, seeking to conquer Hyrule."⟩]

/-- The seed catalog `creators`, a non-nil slice literal. -/
def creators : Slice Creator :=
  .elems [
    ⟨1, "Shigeru Miyamoto", "Producer"⟩,
    ⟨2, "Eiji Aonuma", "Director"⟩]

/-- The part of `GeminiResponse` below `content`: one text part. -/
structure Part where
  Text : String
  deriving DecidableEq, Repr, Inhabited

structure Content where
  Parts : List Part
  deriving DecidableEq, Repr, Inhabited

structure Candidate where
  Content : Content
  deriving DecidableEq, Repr, Inhabited

/-- The struct `GeminiResponse` (lines 94-102); only the lengths and elements of its slices are
used, so they are lists. -/
structure GeminiResponse where
  Candidates : List Candidate
  deriving DecidableEq, Repr, Inhabited

/-! ## JSON encoding of the Go values handed to `c.JSON` -/

/-- `encoding/json` on a `Character`, following its field tags. -/
def marshalCharacter (ch : Character) : JSON :=
  .obj [("id", .num ch.ID), ("name", .str ch.Name), ("description", .str ch.Description)]

/-- `encoding/json` on a `Creator`, following its field tags. -/
def marshalCreator (cr : Creator) : JSON :=
  .obj [("id", .num cr.ID), ("name", .str cr.Name), ("role", .str cr.Role)]

/-- `encoding/json` on a `ChatResponse`. -/
def marshalChatResponse (r : ChatResponse) : JSON :=
  .obj [("reply", .str r.Reply)]

/-- `encoding/json` on a slice: a nil slice is written as `null`, any other as an array. -/
def marshalSlice {α : Type} (enc : α → JSON) : Slice α → JSON
  | .nil => .null
  | .elems xs => .arr (xs.map enc)

/-- The map literal `gin.H` with string values. -/
def H (members : List (String × String)) : JSON :=
  .obj (members.map fun kv => (kv.1, JSON.str kv.2))

/-! ## Package `strings` -/

/-- `unicode.ToLower`: ASCII is handled in place, every other rune goes through the Unicode
case table `special`. -/
def unicodeToLower (special : Char → Char) (r : Char) : Char :=
  if r.toNat ≤ 0x7F then
    if 'A'.toNat ≤ r.toNat ∧ r.toNat ≤ 'Z'.toNat then Char.ofNat (r.toNat + ('a'.toNat - 'A'.toNat))
    else r
  else special r

/-- `strings.ToLower`: every rune mapped by `unicode.ToLower`. -/
def ToLower (special : Char → Char) (s : String) : String :=
  String.mk (s.data.map (unicodeToLower special))

/-- Whether `substr` occurs in `s` starting at some position, scanning left to right. -/
def occursIn (substr : List Char) : List Char → Bool
  | [] => substr.isPrefixOf []
  | c :: rest => substr.isPrefixOf (c :: rest) || occursIn substr rest

/-- `strings.Contains`: reports whether `substr` is within `s`. -/
def Contains (s substr : String) : Bool :=
  occursIn substr.data s.data

/-! ## Requests, responses and the `gin.Context` -/

/-- The inbound request.  `path` is the URL path (`*` for the request target `*`).  `query` lists
the URL query parameters in order.  `body` is what the
JSON decoder reads off the request body: the first JSON value of the body, or `none` when the body
is empty or does not start with a well-formed JSON value. -/
structure Request where
  method : String
  path : String
  query : List (String × String)
  body : Option JSON

/-- What has been written as the response body. -/
inductive Body where
  | empty
  | json (v : JSON)
  | text (s : String)

/-- The `gin.Context` of one request: the request, the response under construction (`header`,
`status`, `body`), whether the chain was aborted, and the effects observed while handling: the
route handlers that ran, the outbound POSTs (URL and JSON payload) and whether `log.Fatal`
ended the process. -/
structure Context where
  request : Request
  header : List (String × String)
  status : Nat
  body : Body
  aborted : Bool
  ran : List String
  posts : List (String × JSON)
  exited : Bool

/-- The context gin hands to the first handler of the chain. -/
def newContext (req : Request) : Context :=
  { request := req, header := [], status := 200, body := .empty, aborted := false,
    ran := [], posts := [], exited := false }

/-- The value stored under `key` in a header, if any. -/
def headerGet (h : List (String × String)) (key : String) : Option String :=
  (h.find? fun kv => kv.1 == key).map Prod.snd

/-- The method `Header().Set`: replaces the value stored under `key`. -/
def headerSet (h : List (String × String)) (key value : String) : List (String × String) :=
  (h.filter fun kv => !(kv.1 == key)) ++ [(key, value)]

/-- The call `c.Writer.Header().Set(key, value)`. -/
def Context.setHeader (c : Context) (key value : String) : Context :=
  { c with header := headerSet c.header key value }

/-- The method `c.JSON(code, obj)`, where `v` is the JSON encoding of `obj`: sets the status,
the content type when none is set yet, and writes the body. -/
def Context.JSON (c : Context) (code : Nat) (v : JSON) : Context :=
  { c with
    status := code
    header :=
      match headerGet c.header "Content-Type" with
      | some _ => c.header
      | none => headerSet c.header "Content-Type" "application/json; charset=utf-8"
    body := .json v }

/-- The method `c.AbortWithStatus(code)`: writes the status line and stops the handler chain. -/
def Context.AbortWithStatus (c : Context) (code : Nat) : Context :=
  { c with status := code, aborted := true }

/-- The method `c.Query(key)`: the first value of the query parameter, the empty string when the
parameter is absent. -/
def Context.Query (c : Context) (key : String) : String :=
  match c.request.query.find? fun kv => kv.1 == key with
  | some kv => kv.2
  | none => ""

/-! ## Binding the chat request (`c.ShouldBindJSON(&req)`) -/

/-- The folding `encoding/json` applies to an object key before comparing it with a field name:
ASCII letters are upper-cased, and the two non-ASCII runes whose case orbit contains an ASCII
letter (U+017F and U+212A) are sent to that letter.  Every other rune folds to a non-ASCII rune
and is left as it is here, which makes no difference when the field name is ASCII. -/
def foldRune (r : Char) : Char :=
  if r.toNat ≤ 0x7F then
    if 'a'.toNat ≤ r.toNat ∧ r.toNat ≤ 'z'.toNat then Char.ofNat (r.toNat - ('a'.toNat - 'A'.toNat))
    else r
  else if r.toNat = 0x17F then 'S'
  else if r.toNat = 0x212A then 'K'
  else r

/-- Whether an object key selects the struct field tagged `name` (an ASCII name). -/
def keyMatches (name key : String) : Bool :=
  key.data.map foldRune == name.data.map foldRune

/-- Decoding one member of the request object into `req`: a string is stored in `Message`, `null`
leaves the field alone, any other value is a type error; keys of no field are skipped.
The second component is whether a type error has been recorded. -/
def decodeMember (st : ChatRequest × Bool) (kv : String × JSON) : ChatRequest × Bool :=
  if keyMatches "message" kv.1 then
    match kv.2 with
    | .str s => ({ Message := s }, st.2)
    | .null => st
    | _ => (st.1, true)
  else st

/-- Decoding a JSON value into a zero `ChatRequest`, as `json.Decoder.Decode` does: `null` leaves
the struct alone, an object is decoded member by member, any other value is a type error. -/
def decodeChatRequest : JSON → Except String ChatRequest
  | .null => .ok { Message := "" }
  | .obj members =>
    let st := members.foldl decodeMember ({ Message := "" }, false)
    if st.2 then .error "json: cannot unmarshal into Go struct field ChatRequest.message"
    else .ok st.1
  | _ => .error "json: cannot unmarshal into Go value of type main.ChatRequest"

/-- The call `c.ShouldBindJSON(&req)`: decode the body, then validate; `ChatRequest` carries no
`binding` tag, so validation accepts every decoded value. -/
def Context.ShouldBindJSON (c : Context) : Except String ChatRequest :=
  match c.request.body with
  | none => .error "invalid JSON"
  | some v => decodeChatRequest v

/-! ## The outside world seen by the handlers -/

/-- The `*http.Response` returned by `http.Post`, with its body as `io.ReadAll` delivers it:
`Body` is the data read, `readErr` whether `io.ReadAll` also returned an error. -/
structure UpstreamResponse where
  Status : String
  StatusCode : Int
  Body : String
  readErr : Bool

/-- Everything the handlers take from outside the program. -/
structure Env where
  /-- The Unicode lower-case table for runes outside ASCII. -/
  lowerTable : Char → Char
  /-- The function `os.Getenv`. -/
  getenv : String → String
  /-- The function `http.Post` on a URL and a JSON payload; `none` is a transport error. -/
  post : String → JSON → Option UpstreamResponse
  /-- The function `json.Unmarshal` into a `GeminiResponse`; `none` is a decoding error. -/
  unmarshal : String → Option GeminiResponse

/-! ## Handlers (`main.go` lines 75-171) -/

/-- Handler `getCharacters`. -/
def getCharacters (c : Context) : Context :=
  c.JSON 200 (marshalSlice marshalCharacter characters)

/-- Handler `getCreators`. -/
def getCreators (c : Context) : Context :=
  c.JSON 200 (marshalSlice marshalCreator creators)

/-- The loop of `searchCharacters` (lines 85-90): `results` starts as a nil slice and receives
every character whose lower-cased name contains `query`. -/
def searchResults (special : Char → Char) (query : String) : Slice Character :=
  characters.toList.foldl
    (fun results char =>
      if Contains (ToLower special char.Name) query then results.append char else results)
    Slice.nil

/-- Handler `searchCharacters`. -/
def searchCharacters (special : Char → Char) (c : Context) : Context :=
  let query := ToLower special (c.Query "q")
  let results := searchResults special query
  c.JSON 200 (marshalSlice marshalCharacter results)

/-- The persona text put before the user message (line 124). -/
def personaPrefix : String :=
  "You are Link from The Legend of Zelda: Breath of the Wild. Speak courageously, concisely, and with a heroic tone. Avoid modern slang and stay true to the character's personality. User: "

/-- The endpoint URL without the key (line 118). -/
def endpointBase : String :=
  "https://generativelanguage.googleapis.com/v1/models/gemini-1.5-pro:generateContent?key="

/-- The outbound payload (lines 119-129). -/
def chatPayload (message : String) : JSON :=
  .obj [("contents", .arr [.obj [("parts", .arr [.obj [("text", .str (personaPrefix ++ message))]])]])]

/-- The reply chosen from the decoded response (lines 165-168). -/
def chooseReply (g : GeminiResponse) : String :=
  if g.Candidates.length > 0 ∧ (g.Candidates.getD 0 default).Content.Parts.length > 0 then
    ((g.Candidates.getD 0 default).Content.Parts.getD 0 default).Text
  else "No reply"

/-- Handler `chatWithLink`.  `json.Marshal` cannot fail on the payload built here (maps and
strings only), so its error branch (lines 132-135) is omitted. -/
def chatWithLink (env : Env) (c : Context) : Context :=
  match c.ShouldBindJSON with
  | .error _ => c.JSON 400 (H [("error", "Invalid request")])
  | .ok req =>
    let apiKey := env.getenv "GEMINI_API_KEY"
    if apiKey == "" then
      { c with exited := true }
    else
      let url := endpointBase ++ apiKey
      let payload := chatPayload req.Message
      let c := { c with posts := c.posts ++ [(url, payload)] }
      match env.post url payload with
      | none => c.JSON 500 (H [("error", "Failed to contact Gemini API")])
      | some resp =>
        if resp.StatusCode ≠ 200 then
          c.JSON 500
            (H [("error", "Gemini API error: " ++ resp.Status ++ ", body: " ++ resp.Body)])
        else if resp.readErr then
          c.JSON 500 (H [("error", "Failed to read Gemini response")])
        else
          match env.unmarshal resp.Body with
          | none => c.JSON 500 (H [("error", "Failed to parse Gemini response")])
          | some geminiResp =>
            c.JSON 200 (marshalChatResponse { Reply := chooseReply geminiResp })

/-! ## Router and middleware (`main`, lines 54-72) -/

/-- The middleware registered with `r.Use` (lines 56-65); `next` is the rest of the handler
chain, run by `c.Next()`. -/
def corsMiddleware (next : Context → Context) (c : Context) : Context :=
  let c := c.setHeader "Access-Control-Allow-Origin" "*"
  let c := c.setHeader "Access-Control-Allow-Methods" "GET, POST, OPTIONS"
  let c := c.setHeader "Access-Control-Allow-Headers" "Content-Type"
  if c.request.method == "OPTIONS" then
    c.AbortWithStatus 204
  else
    next c

/-- The handler gin runs when no route matches: a plain-text 404. -/
def noRoute (c : Context) : Context :=
  { c with status := 404, header := headerSet c.header "Content-Type" "text/plain",
           body := .text "404 page not found" }

/-- The route table (lines 67-70): the handler registered for a method and path, with its name;
`none` when no route matches. -/
def routeTable (env : Env) (method path : String) : Option (String × (Context → Context)) :=
  if method == "GET" && path == "/characters" then some ("getCharacters", getCharacters)
  else if method == "GET" && path == "/characters/search" then
    some ("searchCharacters", searchCharacters env.lowerTable)
  else if method == "GET" && path == "/creators" then some ("getCreators", getCreators)
  else if method == "POST" && path == "/chat" then some ("chatWithLink", chatWithLink env)
  else none

/-- The tail of the handler chain of a matched route: the route handler, recorded in `ran`
under its name. -/
def runRoute (name : String) (handler : Context → Context) (c : Context) : Context :=
  handler { c with ran := c.ran ++ [name] }

/-- The path without its final slash, when it ends in one. -/
def trimSlash (path : String) : Option String :=
  match path.data.reverse with
  | [] => none
  | last :: rest => if last = '/' then some (String.mk rest.reverse) else none

/-- The router's trailing-slash recommendation (gin's `RedirectTrailingSlash`, on by default) for
a request that matched no route: the path with its final slash removed, or with a slash added,
when that path is a route of the same method.  Nothing is recommended for the path `/` or the
method CONNECT. -/
def redirectTarget (env : Env) (method path : String) : Option String :=
  if method == "CONNECT" || path == "/" then none
  else
    match trimSlash path with
    | some shorter => if (routeTable env method shorter).isSome then some shorter else none
    | none => if (routeTable env method (path ++ "/")).isSome then some (path ++ "/") else none

/-- The redirect the router writes itself (gin's `redirectRequest`, through `http.Redirect`):
301 for GET with a short HTML body, 307 for any other method, and the target in `Location`
(the query string the target carries along is left out).  No handler of the chain runs. -/
def redirectRequest (c : Context) (target : String) : Context :=
  let c := c.setHeader "Location" target
  if c.request.method == "GET" then
    { c with
      status := 301
      header := headerSet c.header "Content-Type" "text/html; charset=utf-8"
      body := .text ("<a href=\"" ++ target ++ "\">Moved Permanently</a>.\n\n") }
  else
    { c with status := 307 }

/-- gin's `handleHTTPRequest` for the routes of `main`: a request that matches a route runs the
middleware with the route handler behind it; a request that matches none and differs from a
route of its method by a trailing slash is redirected by the router, without running the
middleware; any other request runs the middleware with the no-route handler behind it. -/
def handleHTTPRequest (env : Env) (req : Request) : Context :=
  match routeTable env req.method req.path with
  | some (name, handler) => corsMiddleware (runRoute name handler) (newContext req)
  | none =>
    match redirectTarget env req.method req.path with
    | some target => redirectRequest (newContext req) target
    | none => corsMiddleware noRoute (newContext req)

/-- The answer of the HTTP server itself to the request `OPTIONS *` (the `globalOptionsHandler`
of `net/http`): an empty 200. -/
def globalOptions (c : Context) : Context :=
  c.setHeader "Content-Length" "0"

/-- Serving one request (`r.Run`, that is `http.ListenAndServe` with gin's engine as the
handler): the server answers `OPTIONS *` itself and hands every other request to gin. -/
def serve (env : Env) (req : Request) : Context :=
  if req.method == "OPTIONS" && req.path == "*" then globalOptions (newContext req)
  else handleHTTPRequest env req

/-! ## Sample inputs and the predicates used in the statements -/

/-- A fragment of the Unicode lower-case table: the Latin-1 capital letters. -/
def latin1Lower (r : Char) : Char :=
  if 0xC0 ≤ r.toNat ∧ r.toNat ≤ 0xDE ∧ r.toNat ≠ 0xD7 then Char.ofNat (r.toNat + 32) else r

/-- A `GET /characters/search` request, with or without the parameter `q`. -/
def searchRequest (q : Option String) : Request :=
  { method := "GET", path := "/characters/search",
    query := match q with
      | some v => [("q", v)]
      | none => [],
    body := none }

/-- The catalog record of Zelda. -/
def zelda : Character :=
  ⟨2, "Zelda", "The princess of Hyrule, bearer of the Triforce of Wisdom."⟩

/-- A `POST /chat` request with the given decoded body. -/
def chatRequest (body : Option JSON) : Request :=
  { method := "POST", path := "/chat", query := [], body := body }

/-- The body of a well-formed chat request carrying the message "Hello". -/
def helloBody : JSON :=
  .obj [("message", .str "Hello")]

/-- An environment in which the key is set and the endpoint answers with the given response,
whose body decodes to `g`. -/
def relayEnv (resp : UpstreamResponse) (g : GeminiResponse) : Env :=
  { lowerTable := latin1Lower
    getenv := fun name => if name == "GEMINI_API_KEY" then "test-key" else ""
    post := fun _ _ => some resp
    unmarshal := fun _ => some g }

/-- An upstream answer with status 200. -/
def okResponse : UpstreamResponse :=
  { Status := "200 OK", StatusCode := 200, Body := "upstream body", readErr := false }

/-- An upstream answer with status 503. -/
def unavailableResponse : UpstreamResponse :=
  { Status := "503 Service Unavailable", StatusCode := 503, Body := "overloaded", readErr := false }

/-- A decoded response holding candidates with the given part texts. -/
def geminiOf (texts : List (List String)) : GeminiResponse :=
  { Candidates := texts.map fun parts => { Content := { Parts := parts.map fun t => { Text := t } } } }

/-- The requests the router redirects instead of running a handler chain: a route of `main`
followed by one more slash, under the method of that route. -/
def TrailingSlashOfRoute (req : Request) : Prop :=
  (req.method = "GET" ∧
    (req.path = "/characters/" ∨ req.path = "/characters/search/" ∨ req.path = "/creators/"))
  ∨ (req.method = "POST" ∧ req.path = "/chat/")

/-- Whether a JSON value can be stored in the string field `Message`. -/
def isStringOrNull : JSON → Bool
  | .str _ => true
  | .null => true
  | _ => false

/-- A request body that does not decode into a `ChatRequest`: nothing that reads as a JSON value,
a value that is neither an object nor `null`, or an object with a member selecting the field
`message` whose value is neither a string nor `null`. -/
def MalformedBody : Option JSON → Prop
  | none => True
  | some .null => False
  | some (.obj members) =>
    ∃ kv ∈ members, keyMatches "message" kv.1 = true ∧ isStringOrNull kv.2 = false
  | some _ => True

/-! ## Lemmas on strings and slices -/

theorem occursIn_iff (sub s : List Char) : occursIn sub s = true ↔ sub <:+: s := by
  induction s with
  | nil => simp [occursIn]
  | cons c rest ih => simp [occursIn, List.infix_cons_iff, ih]

theorem Contains_iff (s substr : String) : Contains s substr = true ↔ substr.data <:+: s.data :=
  occursIn_iff _ _

theorem foldl_append_elems {α : Type} (p : α → Bool) (l : List α) (xs : List α) :
    l.foldl (fun (r : Slice α) x => if p x then r.append x else r) (.elems xs)
      = .elems (xs ++ l.filter p) := by
  induction l generalizing xs with
  | nil => simp
  | cons a t ih =>
    by_cases h : p a = true
    · have hstep : (Slice.elems xs).append a = .elems (xs ++ [a]) := rfl
      simp only [List.foldl_cons, h, if_true, hstep, ih, List.filter_cons_of_pos,
        List.append_assoc, List.singleton_append]
    · have hf : List.filter p (a :: t) = List.filter p t := List.filter_cons_of_neg h
      simp only [List.foldl_cons, h, if_false, hf, ih, Bool.false_eq_true]

theorem foldl_append_nil {α : Type} (p : α → Bool) (l : List α) :
    l.foldl (fun (r : Slice α) x => if p x then r.append x else r) .nil
      = match l.filter p with
        | [] => .nil
        | y :: ys => .elems (y :: ys) := by
  induction l with
  | nil => simp
  | cons a t ih =>
    by_cases h : p a = true
    · have hstep : (Slice.nil : Slice α).append a = .elems [a] := rfl
      simp only [List.foldl_cons, h, if_true, hstep, foldl_append_elems,
        List.filter_cons_of_pos, List.singleton_append]
    · have hf : List.filter p (a :: t) = List.filter p t := List.filter_cons_of_neg h
      simp only [List.foldl_cons, h, if_false, hf, ih, Bool.false_eq_true]

theorem searchResults_toList (special : Char → Char) (query : String) :
    (searchResults special query).toList
      = characters.toList.filter fun ch => Contains (ToLower special ch.Name) query := by
  unfold searchResults
  rw [foldl_append_nil]
  split <;> simp_all [Slice.toList]

theorem characters_nodup : characters.toList.Nodup := by
  decide

/-! ## Lookup service -/

/-- C1: for every query, `searchCharacters` answers 200 with the encoding of a result slice whose
elements are exactly the catalog records whose lower-cased name contains the lower-cased query
as a substring: the result is the catalog filtered by that test, hence a sub-list of the catalog
in catalog order; a record is returned iff it is in the catalog and satisfies the containment;
and every returned record occurs exactly once. -/
theorem searchCharacters_filters_catalog (special : Char → Char) (c : Context) :
    let q := ToLower special (c.Query "q")
    let results := searchResults special q
    searchCharacters special c = c.JSON 200 (marshalSlice marshalCharacter results)
    ∧ results.toList
        = characters.toList.filter (fun ch => decide (q.data <:+: (ToLower special ch.Name).data))
    ∧ results.toList.Sublist characters.toList
    ∧ (∀ ch, ch ∈ results.toList ↔
        ch ∈ characters.toList ∧ q.data <:+: (ToLower special ch.Name).data)
    ∧ (∀ ch, ch ∈ characters.toList → q.data <:+: (ToLower special ch.Name).data →
        results.toList.count ch = 1) := by
  intro q results
  have hfilter : results.toList
      = characters.toList.filter (fun ch => decide (q.data <:+: (ToLower special ch.Name).data)) := by
    show (searchResults special q).toList = _
    rw [searchResults_toList]
    apply List.filter_congr
    intro ch _
    by_cases h : q.data <:+: (ToLower special ch.Name).data
    · simp [h, (Contains_iff _ _).2 h]
    · have h2 : Contains (ToLower special ch.Name) q ≠ true := fun hc => h ((Contains_iff _ _).1 hc)
      simp [h, h2]
  have hmem : ∀ ch, ch ∈ results.toList ↔
      ch ∈ characters.toList ∧ q.data <:+: (ToLower special ch.Name).data := by
    intro ch
    rw [hfilter, List.mem_filter]
    simp
  refine ⟨rfl, hfilter, ?_, hmem, ?_⟩
  · rw [hfilter]
    exact List.filter_sublist _
  · intro ch hch hsub
    have hnd : results.toList.Nodup := by
      rw [hfilter]
      exact characters_nodup.filter _
    exact List.count_eq_one_of_mem hnd ((hmem ch).2 ⟨hch, hsub⟩)

/-- C8: the result of `searchCharacters` depends on the query only through its lower-cased form:
two queries with equal lower-cased forms give the same result slice and the same response, and
the query "ZEL" returns the record named "Zelda". -/
theorem searchCharacters_case_insensitive (special : Char → Char) (q₁ q₂ : String)
    (h : ToLower special q₁ = ToLower special q₂) :
    searchResults special (ToLower special q₁) = searchResults special (ToLower special q₂)
    ∧ (∀ c₁ c₂ : Context, c₁.Query "q" = q₁ → c₂.Query "q" = q₂ →
        (searchCharacters special c₁).status = (searchCharacters special c₂).status
        ∧ (searchCharacters special c₁).body = (searchCharacters special c₂).body)
    ∧ (⟨2, "Zelda", "The princess of Hyrule, bearer of the Triforce of Wisdom."⟩ : Character)
        ∈ (searchResults special (ToLower special "ZEL")).toList := by
  refine ⟨by rw [h], ?_, ?_⟩
  · intro c₁ c₂ h₁ h₂
    simp only [searchCharacters, Context.JSON, h₁, h₂, h, and_self]
  · have hz : searchResults special (ToLower special "ZEL") = .elems [zelda] := rfl
    rw [hz]
    simp [Slice.toList, zelda]

theorem searchCharacters_case_insensitive_witness :
    ToLower latin1Lower "ZEL" = ToLower latin1Lower "zel"
    ∧ searchResults latin1Lower (ToLower latin1Lower "ZEL")
        = searchResults latin1Lower (ToLower latin1Lower "zel") :=
  ⟨by decide, (searchCharacters_case_insensitive latin1Lower "ZEL" "zel" (by decide)).1⟩

/-- C9: with the seed catalog, `GET /characters/search?q=zel` answers 200 with the one-element
array holding the record with id 2, name "Zelda" and its description; the result slice of the
search is that single record. -/
theorem search_zel_returns_zelda (env : Env) :
    searchResults env.lowerTable (ToLower env.lowerTable "zel")
      = .elems [⟨2, "Zelda", "The princess of Hyrule, bearer of the Triforce of Wisdom."⟩]
    ∧ (serve env (searchRequest (some "zel"))).status = 200
    ∧ (serve env (searchRequest (some "zel"))).body
        = .json (.arr [.obj [("id", .num 2), ("name", .str "Zelda"),
            ("description", .str "The princess of Hyrule, bearer of the Triforce of Wisdom.")]]) :=
  ⟨rfl, rfl, rfl⟩

/-- C10: when the query is empty, in particular when the parameter `q` is absent,
`searchCharacters` selects every character of the catalog in catalog order and writes the same
response as `getCharacters`. -/
theorem search_empty_query_lists_all (special : Char → Char) (c : Context)
    (h : c.Query "q" = "" ∨ ∀ kv ∈ c.request.query, kv.1 ≠ "q") :
    searchResults special (ToLower special (c.Query "q")) = characters
    ∧ searchCharacters special c = getCharacters c := by
  have hq : c.Query "q" = "" := by
    rcases h with h | h
    · exact h
    · have hnone : (c.request.query.find? fun kv => kv.1 == "q") = none := by
        rw [List.find?_eq_none]
        intro kv hkv
        simpa using h kv hkv
      simp [Context.Query, hnone]
  have hall : searchResults special (ToLower special (c.Query "q")) = characters := by
    rw [hq]
    rfl
  refine ⟨hall, ?_⟩
  simp only [searchCharacters, getCharacters, hall]

theorem search_empty_query_lists_all_witness :
    searchCharacters latin1Lower (newContext (searchRequest none))
        = getCharacters (newContext (searchRequest none))
    ∧ searchCharacters latin1Lower (newContext (searchRequest (some "")))
        = getCharacters (newContext (searchRequest (some ""))) :=
  ⟨(search_empty_query_lists_all latin1Lower (newContext (searchRequest none))
      (Or.inr (by simp [newContext, searchRequest]))).2,
   (search_empty_query_lists_all latin1Lower (newContext (searchRequest (some "")))
      (Or.inl rfl)).2⟩

/-- C5 (evaluation at the failing input): a search that matches no character leaves `results`
a nil slice, and the body of `GET /characters/search?q=xyz` is the JSON value `null`, which is
not an array. -/
theorem search_no_match_body_is_null (env : Env) :
    searchResults env.lowerTable (ToLower env.lowerTable "xyz") = .nil
    ∧ (serve env (searchRequest (some "xyz"))).status = 200
    ∧ (serve env (searchRequest (some "xyz"))).body = .json .null
    ∧ ∀ items, (serve env (searchRequest (some "xyz"))).body ≠ .json (.arr items) := by
  refine ⟨rfl, rfl, rfl, ?_⟩
  intro items h
  have h2 : Body.json JSON.null = Body.json (JSON.arr items) := h
  cases h2

/-! ## Chat relay -/

theorem decodeMember_flag (members : List (String × JSON)) (st : ChatRequest × Bool) :
    (members.foldl decodeMember st).2 = true ↔
      st.2 = true ∨ ∃ kv ∈ members, keyMatches "message" kv.1 = true ∧ isStringOrNull kv.2 = false := by
  induction members generalizing st with
  | nil => simp
  | cons kv rest ih =>
    rw [List.foldl_cons, ih]
    obtain ⟨k, v⟩ := kv
    by_cases hk : keyMatches "message" k = true
    · cases v <;> simp [decodeMember, hk, isStringOrNull]
    · simp [decodeMember, hk]

theorem shouldBind_error_iff (c : Context) :
    (∃ e, c.ShouldBindJSON = .error e) ↔ MalformedBody c.request.body := by
  unfold Context.ShouldBindJSON
  cases hb : c.request.body with
  | none => simp [MalformedBody]
  | some v =>
    cases v with
    | obj members =>
      have hflag := decodeMember_flag members ({ Message := "" }, false)
      simp only [decodeChatRequest, MalformedBody]
      by_cases hf : (members.foldl decodeMember ({ Message := "" }, false)).2 = true
      · rw [if_pos hf]
        constructor
        · intro _
          rcases hflag.1 hf with h0 | hex
          · cases h0
          · exact hex
        · intro _
          exact ⟨_, rfl⟩
      · rw [if_neg hf]
        constructor
        · rintro ⟨e, he⟩
          cases he
        · intro hex
          exact absurd (hflag.2 (Or.inr hex)) hf
    | null => simp [decodeChatRequest, MalformedBody]
    | bool b => simp [decodeChatRequest, MalformedBody]
    | num q => simp [decodeChatRequest, MalformedBody]
    | str t => simp [decodeChatRequest, MalformedBody]
    | arr items => simp [decodeChatRequest, MalformedBody]

/-- C2 (amended): whenever the request body does not decode into a `ChatRequest` (no JSON value
can be read, the value is neither an object nor `null`, or its `message` member is neither a
string nor `null`), `chatWithLink` answers 400 with the error "Invalid request", performs no
outbound call and does not end the process. -/
theorem chat_rejects_undecodable_body (env : Env) (c : Context)
    (h : MalformedBody c.request.body) :
    (chatWithLink env c).status = 400
    ∧ (chatWithLink env c).body = .json (.obj [("error", .str "Invalid request")])
    ∧ (chatWithLink env c).posts = c.posts
    ∧ (chatWithLink env c).exited = c.exited := by
  obtain ⟨e, he⟩ := (shouldBind_error_iff c).2 h
  simp [chatWithLink, he, Context.JSON, H]

theorem chat_rejects_undecodable_body_witness :
    (chatWithLink (relayEnv okResponse (geminiOf [["Hyah!"]]))
        (newContext (chatRequest (some (.obj [("message", .num 7)]))))).status = 400
    ∧ (chatWithLink (relayEnv okResponse (geminiOf [["Hyah!"]]))
        (newContext (chatRequest none))).posts = [] :=
  ⟨(chat_rejects_undecodable_body _ (newContext (chatRequest (some (.obj [("message", .num 7)]))))
      ⟨("message", .num 7), by simp, by decide, rfl⟩).1,
   (chat_rejects_undecodable_body (relayEnv okResponse (geminiOf [["Hyah!"]]))
      (newContext (chatRequest none)) trivial).2.2.1⟩

/-- C2 (counterexample): the body with the single member "msg" and no `message` member is
accepted: with the key set, `POST /chat` performs the outbound call with an empty user message
and answers 200, not 400. -/
theorem chat_missing_message_is_accepted :
    (newContext (chatRequest (some (.obj [("msg", .str "x")])))).ShouldBindJSON
        = .ok { Message := "" }
    ∧ (serve (relayEnv okResponse (geminiOf [["Hyah!"]]))
        (chatRequest (some (.obj [("msg", .str "x")])))).status = 200
    ∧ (serve (relayEnv okResponse (geminiOf [["Hyah!"]]))
        (chatRequest (some (.obj [("msg", .str "x")])))).status ≠ 400
    ∧ (serve (relayEnv okResponse (geminiOf [["Hyah!"]]))
        (chatRequest (some (.obj [("msg", .str "x")])))).posts
          = [(endpointBase ++ "test-key", chatPayload "")] := by
  refine ⟨rfl, rfl, ?_, rfl⟩
  have hs : (serve (relayEnv okResponse (geminiOf [["Hyah!"]]))
      (chatRequest (some (.obj [("msg", .str "x")])))).status = 200 := rfl
  rw [hs]
  decide

theorem chatWithLink_decoded (env : Env) (c : Context) (req : ChatRequest)
    (resp : UpstreamResponse) (g : GeminiResponse)
    (hbind : c.ShouldBindJSON = .ok req)
    (hkey : env.getenv "GEMINI_API_KEY" ≠ "")
    (hpost : env.post (endpointBase ++ env.getenv "GEMINI_API_KEY") (chatPayload req.Message)
      = some resp)
    (hcode : resp.StatusCode = 200) (hread : resp.readErr = false)
    (hdec : env.unmarshal resp.Body = some g) :
    (chatWithLink env c).status = 200
    ∧ (chatWithLink env c).body = .json (.obj [("reply", .str (chooseReply g))]) := by
  simp [chatWithLink, hbind, hkey, hpost, hcode, hread, hdec, Context.JSON, marshalChatResponse]

theorem chooseReply_cases (g : GeminiResponse) :
    (∀ cand rest part parts, g.Candidates = cand :: rest →
        cand.Content.Parts = part :: parts → chooseReply g = part.Text)
    ∧ (g.Candidates = [] → chooseReply g = "No reply")
    ∧ (∀ cand rest, g.Candidates = cand :: rest → cand.Content.Parts = [] →
        chooseReply g = "No reply") := by
  refine ⟨?_, ?_, ?_⟩
  · intro cand rest part parts h₁ h₂
    simp [chooseReply, h₁, h₂]
  · intro h₁
    simp [chooseReply, h₁]
  · intro cand rest h₁ h₂
    simp [chooseReply, h₁, h₂]

/-- C3: once the external response has been decoded (well-formed request, key set, upstream
status 200, body read and decoded to `g`), `chatWithLink` answers 200 with the body
`{"reply": reply}`, where `reply` is the text of the first part of the first candidate when the
candidate list and that candidate's part list are non-empty, and the literal "No reply" when there
is no candidate or the first candidate has no part. -/
theorem chat_reply_from_first_candidate (env : Env) (c : Context) (req : ChatRequest)
    (resp : UpstreamResponse) (g : GeminiResponse)
    (hbind : c.ShouldBindJSON = .ok req)
    (hkey : env.getenv "GEMINI_API_KEY" ≠ "")
    (hpost : env.post (endpointBase ++ env.getenv "GEMINI_API_KEY") (chatPayload req.Message)
      = some resp)
    (hcode : resp.StatusCode = 200) (hread : resp.readErr = false)
    (hdec : env.unmarshal resp.Body = some g) :
    ∃ reply : String,
      (chatWithLink env c).status = 200
      ∧ (chatWithLink env c).body = .json (.obj [("reply", .str reply)])
      ∧ (∀ cand rest part parts, g.Candidates = cand :: rest →
          cand.Content.Parts = part :: parts → reply = part.Text)
      ∧ (g.Candidates = [] → reply = "No reply")
      ∧ (∀ cand rest, g.Candidates = cand :: rest → cand.Content.Parts = [] →
          reply = "No reply") := by
  obtain ⟨hs, hb⟩ := chatWithLink_decoded env c req resp g hbind hkey hpost hcode hread hdec
  exact ⟨chooseReply g, hs, hb, chooseReply_cases g⟩

theorem chat_reply_from_first_candidate_witness :
    ∃ reply : String,
      (chatWithLink (relayEnv okResponse (geminiOf [["Hyah!", "second"], ["other"]]))
        (newContext (chatRequest (some helloBody)))).status = 200
      ∧ (chatWithLink (relayEnv okResponse (geminiOf [["Hyah!", "second"], ["other"]]))
        (newContext (chatRequest (some helloBody)))).body = .json (.obj [("reply", .str reply)])
      ∧ reply = "Hyah!" := by
  obtain ⟨reply, hs, hb, hfirst, _, _⟩ :=
    chat_reply_from_first_candidate (relayEnv okResponse (geminiOf [["Hyah!", "second"], ["other"]]))
      (newContext (chatRequest (some helloBody))) { Message := "Hello" } okResponse
      (geminiOf [["Hyah!", "second"], ["other"]]) rfl (by decide) rfl rfl rfl rfl
  exact ⟨reply, hs, hb, hfirst _ _ _ _ rfl rfl⟩

/-- C4 (amended): for a well-formed request and a decoded external response that has a candidate
with a text part, and in which the first part of the first candidate, when it exists, has a
non-empty text, `chatWithLink` answers 200 with `{"reply": s}` where `s` is a non-empty string. -/
theorem chat_reply_nonempty (env : Env) (c : Context) (req : ChatRequest)
    (resp : UpstreamResponse) (g : GeminiResponse)
    (hbind : c.ShouldBindJSON = .ok req)
    (hkey : env.getenv "GEMINI_API_KEY" ≠ "")
    (hpost : env.post (endpointBase ++ env.getenv "GEMINI_API_KEY") (chatPayload req.Message)
      = some resp)
    (hcode : resp.StatusCode = 200) (hread : resp.readErr = false)
    (hdec : env.unmarshal resp.Body = some g)
    (_hpart : ∃ cand ∈ g.Candidates, cand.Content.Parts ≠ [])
    (htext : ∀ cand rest part parts, g.Candidates = cand :: rest →
        cand.Content.Parts = part :: parts → part.Text ≠ "") :
    ∃ s : String, s ≠ ""
      ∧ (chatWithLink env c).status = 200
      ∧ (chatWithLink env c).body = .json (.obj [("reply", .str s)]) := by
  obtain ⟨hs, hb⟩ := chatWithLink_decoded env c req resp g hbind hkey hpost hcode hread hdec
  obtain ⟨hfirst, hnone, hempty⟩ := chooseReply_cases g
  refine ⟨chooseReply g, ?_, hs, hb⟩
  cases hc : g.Candidates with
  | nil =>
    rw [hnone hc]
    decide
  | cons cand rest =>
    cases hp : cand.Content.Parts with
    | nil =>
      rw [hempty cand rest hc hp]
      decide
    | cons part parts =>
      rw [hfirst cand rest part parts hc hp]
      exact htext cand rest part parts hc hp

theorem chat_reply_nonempty_witness :
    ∃ s : String, s ≠ ""
      ∧ (chatWithLink (relayEnv okResponse (geminiOf [["Hyah!"]]))
          (newContext (chatRequest (some helloBody)))).status = 200
      ∧ (chatWithLink (relayEnv okResponse (geminiOf [["Hyah!"]]))
          (newContext (chatRequest (some helloBody)))).body = .json (.obj [("reply", .str s)]) :=
  chat_reply_nonempty (relayEnv okResponse (geminiOf [["Hyah!"]]))
    (newContext (chatRequest (some helloBody))) { Message := "Hello" } okResponse
    (geminiOf [["Hyah!"]]) rfl (by decide) rfl rfl rfl rfl
    ⟨_, List.mem_singleton.2 rfl, by decide⟩
    (by
      intro cand rest part parts h₁ h₂
      have hcand : cand = { Content := { Parts := [{ Text := "Hyah!" }] } } := by
        have := (List.cons.inj h₁.symm).1
        exact this
      subst hcand
      have hpart : part = { Text := "Hyah!" } := (List.cons.inj h₂.symm).1
      subst hpart
      decide)

/-- C4 (counterexample): a well-formed request whose external response has one candidate with one
text part, the text being empty, is answered with `{"reply": ""}`: the reply is the empty string. -/
theorem chat_reply_can_be_empty :
    (∃ cand ∈ (geminiOf [[""]]).Candidates, cand.Content.Parts ≠ [])
    ∧ (newContext (chatRequest (some helloBody))).ShouldBindJSON = .ok { Message := "Hello" }
    ∧ (serve (relayEnv okResponse (geminiOf [[""]])) (chatRequest (some helloBody))).status = 200
    ∧ (serve (relayEnv okResponse (geminiOf [[""]])) (chatRequest (some helloBody))).body
        = .json (.obj [("reply", .str "")]) :=
  ⟨⟨_, List.mem_singleton.2 rfl, by decide⟩, rfl, rfl, rfl⟩

/-- C6: for a well-formed request with the key set, when the endpoint answers with a status code
outside 200-299, `chatWithLink` answers 500 with the body `{"error": msg}`, where `msg` is
"Gemini API error: " followed by the upstream status text, ", body: " and the upstream body as
read; `msg` contains both the status text and the body, and the response is not a reply. -/
theorem chat_upstream_error_is_relayed (env : Env) (c : Context) (req : ChatRequest)
    (resp : UpstreamResponse)
    (hbind : c.ShouldBindJSON = .ok req)
    (hkey : env.getenv "GEMINI_API_KEY" ≠ "")
    (hpost : env.post (endpointBase ++ env.getenv "GEMINI_API_KEY") (chatPayload req.Message)
      = some resp)
    (hcode : resp.StatusCode < 200 ∨ 300 ≤ resp.StatusCode) :
    let msg := "Gemini API error: " ++ resp.Status ++ ", body: " ++ resp.Body
    (chatWithLink env c).status = 500
    ∧ (chatWithLink env c).body = .json (.obj [("error", .str msg)])
    ∧ resp.Status.data <:+: msg.data
    ∧ resp.Body.data <:+: msg.data
    ∧ ∀ r : ChatResponse, (chatWithLink env c).body ≠ .json (marshalChatResponse r) := by
  intro msg
  have hne : resp.StatusCode ≠ 200 := by omega
  have hs : (chatWithLink env c).status = 500
      ∧ (chatWithLink env c).body = .json (.obj [("error", .str msg)]) := by
    simp [chatWithLink, hbind, hkey, hpost, hne, Context.JSON, H, msg]
  refine ⟨hs.1, hs.2, ?_, ?_, ?_⟩
  · refine ⟨"Gemini API error: ".data, (", body: " ++ resp.Body).data, ?_⟩
    simp [msg, String.data_append]
  · refine ⟨("Gemini API error: " ++ resp.Status ++ ", body: ").data, [], ?_⟩
    simp [msg, String.data_append]
  · intro r hr
    rw [hs.2] at hr
    simp [marshalChatResponse] at hr

theorem chat_upstream_error_is_relayed_witness :
    (chatWithLink (relayEnv unavailableResponse (geminiOf []))
        (newContext (chatRequest (some helloBody)))).status = 500
    ∧ (chatWithLink (relayEnv unavailableResponse (geminiOf []))
        (newContext (chatRequest (some helloBody)))).body
        = .json (.obj [("error",
            .str "Gemini API error: 503 Service Unavailable, body: overloaded")]) := by
  have h := chat_upstream_error_is_relayed (relayEnv unavailableResponse (geminiOf []))
    (newContext (chatRequest (some helloBody))) { Message := "Hello" } unavailableResponse
    rfl (by decide) rfl (Or.inr (by decide))
  exact ⟨h.1, h.2.1⟩

/-! ## CORS middleware -/

theorem find_filter_ne (h : List (String × String)) (k k' : String) (hne : k ≠ k') :
    ((h.filter fun kv => !(kv.1 == k)).find? fun kv => kv.1 == k')
      = h.find? fun kv => kv.1 == k' := by
  induction h with
  | nil => rfl
  | cons kv rest ih =>
    obtain ⟨a, b⟩ := kv
    by_cases h₁ : a = k
    · subst h₁
      have h₂ : (a == k') = false := by simpa using hne
      simp [List.filter_cons, List.find?_cons, h₂, ih]
    · by_cases h₂ : a = k'
      · subst h₂
        simp [List.filter_cons, List.find?_cons, h₁]
      · simp [List.filter_cons, List.find?_cons, h₁, h₂, ih]

theorem headerGet_headerSet_ne (h : List (String × String)) (k k' v : String) (hne : k ≠ k') :
    headerGet (headerSet h k v) k' = headerGet h k' := by
  unfold headerGet headerSet
  rw [List.find?_append, find_filter_ne h k k' hne]
  cases hf : h.find? fun kv => kv.1 == k' with
  | some kv => simp
  | none => simp [hne]

theorem headerGet_JSON (c : Context) (code : Nat) (v : JSON) (key : String)
    (hne : "Content-Type" ≠ key) :
    headerGet (c.JSON code v).header key = headerGet c.header key := by
  unfold Context.JSON
  cases headerGet c.header "Content-Type" with
  | some _ => rfl
  | none => exact headerGet_headerSet_ne _ _ _ _ hne

theorem chatWithLink_header (env : Env) (c : Context) (key : String)
    (hne : "Content-Type" ≠ key) :
    headerGet (chatWithLink env c).header key = headerGet c.header key := by
  unfold chatWithLink
  split
  · exact headerGet_JSON _ _ _ _ hne
  · simp only
    split
    · rfl
    · split
      · exact headerGet_JSON _ _ _ _ hne
      · split
        · exact headerGet_JSON _ _ _ _ hne
        · split
          · exact headerGet_JSON _ _ _ _ hne
          · split <;> exact headerGet_JSON _ _ _ _ hne

theorem chatWithLink_exited (env : Env) (c : Context)
    (h : (chatWithLink env c).exited = true) :
    c.exited = true ∨ env.getenv "GEMINI_API_KEY" = "" := by
  unfold chatWithLink at h
  split at h
  · exact Or.inl h
  · simp only at h
    split at h
    · rename_i hk
      exact Or.inr (by simpa using hk)
    · left
      split at h
      · exact h
      · split at h
        · exact h
        · split at h
          · exact h
          · split at h <;> exact h

theorem routeTable_isSome (env : Env) (method path : String)
    (h : (routeTable env method path).isSome = true) :
    (method = "GET" ∧ (path = "/characters" ∨ path = "/characters/search" ∨ path = "/creators"))
    ∨ (method = "POST" ∧ path = "/chat") := by
  unfold routeTable at h
  split_ifs at h with h₁ h₂ h₃ h₄
  · simp at h₁
    exact Or.inl ⟨h₁.1, Or.inl h₁.2⟩
  · simp at h₂
    exact Or.inl ⟨h₂.1, Or.inr (Or.inl h₂.2)⟩
  · simp at h₃
    exact Or.inl ⟨h₃.1, Or.inr (Or.inr h₃.2)⟩
  · simp at h₄
    exact Or.inr h₄
  · simp at h

theorem routeTable_handler (env : Env) (method path name : String) (handler : Context → Context)
    (h : routeTable env method path = some (name, handler)) (c : Context) :
    (∀ key, "Content-Type" ≠ key → headerGet (handler c).header key = headerGet c.header key)
    ∧ ((handler c).exited = true →
        c.exited = true ∨ (method = "POST" ∧ path = "/chat" ∧ env.getenv "GEMINI_API_KEY" = "")) := by
  unfold routeTable at h
  split_ifs at h with h₁ h₂ h₃ h₄
  · obtain ⟨-, rfl⟩ := Prod.mk.inj (Option.some.inj h)
    exact ⟨fun key hne => headerGet_JSON _ _ _ _ hne, fun hx => Or.inl hx⟩
  · obtain ⟨-, rfl⟩ := Prod.mk.inj (Option.some.inj h)
    exact ⟨fun key hne => headerGet_JSON _ _ _ _ hne, fun hx => Or.inl hx⟩
  · obtain ⟨-, rfl⟩ := Prod.mk.inj (Option.some.inj h)
    exact ⟨fun key hne => headerGet_JSON _ _ _ _ hne, fun hx => Or.inl hx⟩
  · obtain ⟨-, rfl⟩ := Prod.mk.inj (Option.some.inj h)
    simp at h₄
    refine ⟨fun key hne => chatWithLink_header _ _ _ hne, fun hx => ?_⟩
    rcases chatWithLink_exited env c hx with hc | hk
    · exact Or.inl hc
    · exact Or.inr ⟨h₄.1, h₄.2, hk⟩

theorem trimSlash_eq_some (path shorter : String) (h : trimSlash path = some shorter) :
    path = shorter ++ "/" := by
  unfold trimSlash at h
  cases hr : path.data.reverse with
  | nil => simp [hr] at h
  | cons last rest =>
    simp only [hr] at h
    split_ifs at h with hl
    have hs : shorter = String.mk rest.reverse := (Option.some.inj h).symm
    have hd : path.data = rest.reverse ++ [last] := by
      have := congrArg List.reverse hr
      simpa using this
    apply String.ext
    rw [String.data_append, hd, hs, hl]

theorem append_slash_ne (path s : String) (hs : s.data.getLast? ≠ some '/') :
    path ++ "/" ≠ s := by
  intro h
  apply hs
  have hd : s.data = path.data ++ ['/'] := by
    rw [← h, String.data_append]
  rw [hd]
  simp

theorem routeTable_append_slash (env : Env) (method path : String) :
    (routeTable env method (path ++ "/")).isSome = false := by
  cases hr : (routeTable env method (path ++ "/")).isSome with
  | false => rfl
  | true =>
    exfalso
    rcases routeTable_isSome env method _ hr with ⟨-, h | h | h⟩ | ⟨-, h⟩
    · exact append_slash_ne path _ (by decide) h
    · exact append_slash_ne path _ (by decide) h
    · exact append_slash_ne path _ (by decide) h
    · exact append_slash_ne path _ (by decide) h

theorem redirectTarget_some (env : Env) (req : Request) (target : String)
    (h : redirectTarget env req.method req.path = some target) : TrailingSlashOfRoute req := by
  unfold redirectTarget at h
  by_cases h₀ : (req.method == "CONNECT" || req.path == "/") = true
  · rw [if_pos h₀] at h
    cases h
  · rw [if_neg h₀] at h
    cases ht : trimSlash req.path with
    | none =>
      simp [ht, routeTable_append_slash] at h
    | some shorter =>
      simp only [ht] at h
      by_cases hs : (routeTable env req.method shorter).isSome = true
      · have hp := trimSlash_eq_some _ _ ht
        unfold TrailingSlashOfRoute
        rcases routeTable_isSome env _ _ hs with ⟨hm, h₁ | h₁ | h₁⟩ | ⟨hm, h₁⟩
        · exact Or.inl ⟨hm, Or.inl (by rw [hp, h₁]; rfl)⟩
        · exact Or.inl ⟨hm, Or.inr (Or.inl (by rw [hp, h₁]; rfl))⟩
        · exact Or.inl ⟨hm, Or.inr (Or.inr (by rw [hp, h₁]; rfl))⟩
        · exact Or.inr ⟨hm, by rw [hp, h₁]; rfl⟩
      · rw [if_neg hs] at h
        cases h

theorem redirected_iff (env : Env) (req : Request) :
    (routeTable env req.method req.path = none
      ∧ ∃ target, redirectTarget env req.method req.path = some target)
    ↔ TrailingSlashOfRoute req := by
  constructor
  · rintro ⟨-, target, h⟩
    exact redirectTarget_some env req target h
  · intro h
    obtain ⟨m, p, q, b⟩ := req
    rcases h with ⟨hm, h | h | h⟩ | ⟨hm, h⟩ <;> simp only at hm h <;> subst hm <;> subst h
    · exact ⟨rfl, _, rfl⟩
    · exact ⟨rfl, _, rfl⟩
    · exact ⟨rfl, _, rfl⟩
    · exact ⟨rfl, _, rfl⟩

theorem serve_eq_handle (env : Env) (req : Request)
    (hstar : ¬ (req.method = "OPTIONS" ∧ req.path = "*")) :
    serve env req = handleHTTPRequest env req := by
  unfold serve
  rw [if_neg]
  simpa using hstar

theorem handle_options (env : Env) (req : Request) (hm : req.method = "OPTIONS") :
    handleHTTPRequest env req
      = (((((newContext req).setHeader "Access-Control-Allow-Origin" "*").setHeader
          "Access-Control-Allow-Methods" "GET, POST, OPTIONS").setHeader
          "Access-Control-Allow-Headers" "Content-Type").AbortWithStatus 204) := by
  have hroute : ∀ path, routeTable env "OPTIONS" path = none := by
    intro path
    simp [routeTable]
  have hred : redirectTarget env "OPTIONS" req.path = none := by
    unfold redirectTarget
    by_cases h₀ : (("OPTIONS" : String) == "CONNECT" || req.path == "/") = true
    · rw [if_pos h₀]
    · rw [if_neg h₀]
      cases trimSlash req.path <;> simp [hroute]
  simp only [handleHTTPRequest, hm, hroute, hred, corsMiddleware, Context.setHeader, newContext]
  rfl

/-- C7 (amended): for every request that reaches a handler chain of the program, that is every
request except a GET or POST whose path is a route of that method followed by one more slash
(redirected by the router) and except `OPTIONS *` (answered by the HTTP server), the context left
by the server carries the headers `Access-Control-Allow-Origin: *`,
`Access-Control-Allow-Methods: GET, POST, OPTIONS` and `Access-Control-Allow-Headers:
Content-Type`; the response is written unless `chatWithLink` finds the key unset and ends the
process; and for every such request whose method is OPTIONS the middleware answers 204 with an
empty body, the chain is aborted and no route handler runs (no outbound call, no process
exit). -/
theorem cors_headers_unless_redirected (env : Env) (req : Request)
    (h : ¬ TrailingSlashOfRoute req) (hstar : ¬ (req.method = "OPTIONS" ∧ req.path = "*")) :
    headerGet (serve env req).header "Access-Control-Allow-Origin" = some "*"
    ∧ headerGet (serve env req).header "Access-Control-Allow-Methods" = some "GET, POST, OPTIONS"
    ∧ headerGet (serve env req).header "Access-Control-Allow-Headers" = some "Content-Type"
    ∧ ((serve env req).exited = true →
        req.method = "POST" ∧ req.path = "/chat" ∧ env.getenv "GEMINI_API_KEY" = "")
    ∧ (req.method = "OPTIONS" →
        (serve env req).status = 204 ∧ (serve env req).body = .empty
        ∧ (serve env req).aborted = true ∧ (serve env req).ran = []
        ∧ (serve env req).posts = [] ∧ (serve env req).exited = false) := by
  rw [serve_eq_handle env req hstar]
  by_cases hm : req.method = "OPTIONS"
  · rw [handle_options env req hm]
    refine ⟨rfl, rfl, rfl, ?_, fun _ => ⟨rfl, rfl, rfl, rfl, rfl, rfl⟩⟩
    intro hx
    cases hx
  · cases hr : routeTable env req.method req.path with
    | some nh =>
      obtain ⟨name, handler⟩ := nh
      have hs : handleHTTPRequest env req
          = runRoute name handler
              ((((newContext req).setHeader "Access-Control-Allow-Origin" "*").setHeader
                "Access-Control-Allow-Methods" "GET, POST, OPTIONS").setHeader
                "Access-Control-Allow-Headers" "Content-Type") := by
        simp [handleHTTPRequest, hr, corsMiddleware, Context.setHeader, newContext, hm]
      rw [hs]
      unfold runRoute
      have hh := fun c => routeTable_handler env _ _ name handler hr c
      refine ⟨?_, ?_, ?_, ?_, fun h' => absurd h' hm⟩
      · rw [(hh _).1 _ (by decide)]
        rfl
      · rw [(hh _).1 _ (by decide)]
        rfl
      · rw [(hh _).1 _ (by decide)]
        rfl
      · intro hx
        rcases (hh _).2 hx with hc | hc
        · cases hc
        · exact hc
    | none =>
      have hred : redirectTarget env req.method req.path = none := by
        cases ht : redirectTarget env req.method req.path with
        | none => rfl
        | some target => exact absurd (redirectTarget_some env req target ht) h
      have hs : handleHTTPRequest env req
          = noRoute ((((newContext req).setHeader "Access-Control-Allow-Origin" "*").setHeader
              "Access-Control-Allow-Methods" "GET, POST, OPTIONS").setHeader
              "Access-Control-Allow-Headers" "Content-Type") := by
        simp [handleHTTPRequest, hr, hred, corsMiddleware, Context.setHeader, newContext, hm]
      rw [hs]
      refine ⟨rfl, rfl, rfl, ?_, fun h' => absurd h' hm⟩
      intro hx
      cases hx

theorem cors_headers_unless_redirected_witness :
    (serve (relayEnv okResponse (geminiOf [["Hyah!"]]))
        { method := "OPTIONS", path := "/chat/", query := [], body := none }).status = 204
    ∧ (serve (relayEnv okResponse (geminiOf [["Hyah!"]]))
        { method := "OPTIONS", path := "/chat/", query := [], body := none }).ran = []
    ∧ headerGet (serve (relayEnv okResponse (geminiOf [["Hyah!"]]))
        { method := "GET", path := "/characters", query := [], body := none }).header
        "Access-Control-Allow-Origin" = some "*"
    ∧ headerGet (serve (relayEnv okResponse (geminiOf [["Hyah!"]]))
        { method := "DELETE", path := "/nowhere", query := [], body := none }).header
        "Access-Control-Allow-Headers" = some "Content-Type" :=
  ⟨((cors_headers_unless_redirected (relayEnv okResponse (geminiOf [["Hyah!"]]))
      { method := "OPTIONS", path := "/chat/", query := [], body := none }
      (by simp [TrailingSlashOfRoute]) (by simp)).2.2.2.2 rfl).1,
   ((cors_headers_unless_redirected (relayEnv okResponse (geminiOf [["Hyah!"]]))
      { method := "OPTIONS", path := "/chat/", query := [], body := none }
      (by simp [TrailingSlashOfRoute]) (by simp)).2.2.2.2 rfl).2.2.2.1,
   (cors_headers_unless_redirected (relayEnv okResponse (geminiOf [["Hyah!"]]))
      { method := "GET", path := "/characters", query := [], body := none }
      (by simp [TrailingSlashOfRoute]) (by simp)).1,
   (cors_headers_unless_redirected (relayEnv okResponse (geminiOf [["Hyah!"]]))
      { method := "DELETE", path := "/nowhere", query := [], body := none }
      (by simp [TrailingSlashOfRoute]) (by simp)).2.2.1⟩

/-- C7 (counterexample): `GET /characters/` matches no route and differs from the route
`/characters` by a trailing slash, so the router answers 301 itself; the middleware does not run
and the response carries none of the three headers.  `POST /chat/` is answered 307 likewise, and
`OPTIONS *` is answered 200, not 204, by the HTTP server, again without the headers. -/
theorem redirect_carries_no_cors_headers :
    (serve (relayEnv okResponse (geminiOf [["Hyah!"]]))
        { method := "GET", path := "/characters/", query := [], body := none }).status = 301
    ∧ (serve (relayEnv okResponse (geminiOf [["Hyah!"]]))
        { method := "GET", path := "/characters/", query := [], body := none }).header
        = [("Location", "/characters"), ("Content-Type", "text/html; charset=utf-8")]
    ∧ headerGet (serve (relayEnv okResponse (geminiOf [["Hyah!"]]))
        { method := "GET", path := "/characters/", query := [], body := none }).header
        "Access-Control-Allow-Origin" = none
    ∧ headerGet (serve (relayEnv okResponse (geminiOf [["Hyah!"]]))
        { method := "GET", path := "/characters/", query := [], body := none }).header
        "Access-Control-Allow-Methods" = none
    ∧ headerGet (serve (relayEnv okResponse (geminiOf [["Hyah!"]]))
        { method := "GET", path := "/characters/", query := [], body := none }).header
        "Access-Control-Allow-Headers" = none
    ∧ (serve (relayEnv okResponse (geminiOf [["Hyah!"]]))
        { method := "POST", path := "/chat/", query := [], body := some helloBody }).status = 307
    ∧ headerGet (serve (relayEnv okResponse (geminiOf [["Hyah!"]]))
        { method := "POST", path := "/chat/", query := [], body := some helloBody }).header
        "Access-Control-Allow-Origin" = none
    ∧ (serve (relayEnv okResponse (geminiOf [["Hyah!"]]))
        { method := "OPTIONS", path := "*", query := [], body := none }).status = 200
    ∧ headerGet (serve (relayEnv okResponse (geminiOf [["Hyah!"]]))
        { method := "OPTIONS", path := "*", query := [], body := none }).header
        "Access-Control-Allow-Origin" = none :=
  ⟨rfl, rfl, rfl, rfl, rfl, rfl, rfl, rfl, rfl⟩

end Zelda
